import Mathlib

/-!
A shallow embedding of the core API client of the `spellbook-thoughtspot`
repository (`src/spellbook/thoughtspot.py`, class `ThoughtSpotAPIClient`),
together with proofs about its behaviour.

Modelling conventions:

* Timezone-aware datetimes are modelled as integer UTC timestamps, in seconds.
  Normalising a datetime to UTC (lines 75-84 of the source) does not change
  the instant it denotes, so it is the identity here.  `timedelta(days=1)`
  is `day = 86400`.  The request dict `d` stores the window as epoch values
  derived injectively from the two instants, so it is modelled as the pair of
  instants itself.
* The JSON body of a `logs/fetch` response is modelled by the list of security
  records it decodes to (the value of `response.json()`); a record carries its
  `date` field (a timestamp) plus opaque further content.  The empty list is
  exactly a falsy body (`elif logs:` at line 115).
* The asyncio scheduler is an oracle: every turn of the `while pending` loop
  (lines 106-134) is driven by one `RoundOracle` giving the set of in-flight
  fetches that `asyncio.wait(..., timeout=5)` reports as done -- listed in the
  order the `for task in done` loop visits them -- the tasks that remain
  pending, the value `datetime.now()` would return this round, and whether the
  awaited suspension point instead delivers an `asyncio.CancelledError`, an
  ordinary `Exception` (both caught at lines 136-140), or an uncatchable
  `BaseException` such as `GeneratorExit`.
* Calls to `log.warning` / `log.debug` / `log.exception` are not modelled;
  yields, sleeps and the creation of fetch tasks are recorded as events.
-/

namespace Spellbook

/-- One day, `dt.timedelta(days=1)`, in seconds. -/
def day : Int := 86400

/-- One security-audit log record, as decoded from the JSON body of a
`api/rest/2.0/logs/fetch` response.  `date` is the record's `date` field
(as the timestamp it denotes); `info` stands for the rest of the record. -/
structure SecurityRecord where
  date : Int
  info : String
deriving Repr, DecidableEq

/-- An HTTP response, reduced to its status code and the list of records its
JSON-array body decodes to. -/
structure Response where
  status : Nat
  body : List SecurityRecord
deriving Repr, DecidableEq

/-- Observable events of the log-collection generator: `yielded` for a `yield`
statement, `slept` for `await asyncio.sleep(..)`, `fetchIssued` for
`pending.add(asyncio.create_task(self.post("api/rest/2.0/logs/fetch", json=d)))`
(tagged with the `[since, until)` window carried by `d` at that moment). -/
inductive GEvent where
  | fetchIssued (window : Int × Int)
  | yielded (r : Response)
  | slept (seconds : Nat)
deriving Repr, DecidableEq

/-- What an awaited suspension point may deliver instead of completing:
`cancelled` is `asyncio.CancelledError` (caught at line 136), `exn` is any
ordinary `Exception` (caught at line 139), `baseExn` is a `BaseException`
that matches neither handler (e.g. `GeneratorExit`). -/
inductive Interrupt where
  | cancelled
  | exn
  | baseExn
deriving Repr, DecidableEq

/-- How a run of the `while pending` loop ended.
* `drained`: the loop condition `while pending:` became false.
* `fuelOut`: the modelled trace ran out of scheduler rounds while fetches were
  still pending -- an unfinished prefix of a real execution.
* `cancelled`: `asyncio.CancelledError` was delivered and caught (`pass`).
* `erroredLogged`: an `Exception` was delivered, caught and logged.
* `raised`: a `BaseException` was delivered; no handler matches, so it
  propagates out of the generator. -/
inductive LoopEnd where
  | drained
  | fuelOut
  | cancelled
  | erroredLogged
  | raised
deriving Repr, DecidableEq

/-- The scheduler's choices for one turn of the `while pending` loop. -/
structure RoundOracle where
  /-- The windows of the fetch tasks `asyncio.wait` returns as `done`, in the
  order the `for task in done` loop visits them. -/
  done : List (Int × Int)
  /-- The windows of the fetch tasks still pending after `asyncio.wait`. -/
  rest : List (Int × Int)
  /-- What `dt.datetime.now(tz=dt.timezone.utc)` returns this round. -/
  now : Int
  /-- An interrupt delivered at the awaited suspension point, if any. -/
  interrupt : Option Interrupt
deriving Repr, DecidableEq

/-- The mutable state of `collect_security_logs` while the `while pending`
loop runs: the pending fetch set (each task identified by its window), the
merged buffer `b`, and the window currently stored in the request dict `d`. -/
structure CollectState where
  pending : List (Int × Int)
  b : List SecurityRecord
  d : Int × Int
deriving Repr, DecidableEq

/-- The observable outcome of a (prefix of a) run of `collect_security_logs`:
the events in order, the windows of the completed fetches in the order their
results were processed, the state after the loop, and how the loop ended. -/
structure RunOut where
  events : List GEvent
  processed : List (Int × Int)
  finalState : CollectState
  ending : LoopEnd
deriving Repr, DecidableEq

/-- The window-scheduling loop of `collect_security_logs` (lines 86-100):

    until = since + dt.timedelta(days=1)
    while until <= final:
        ...schedule fetch for [since, until)...
        since = until
        until = since + dt.timedelta(days=1)

`fuel` bounds the recursion; `scheduleWindows` below supplies fuel that is
always sufficient, since every iteration advances `since` by a full `day`. -/
def scheduleWindowsAux (final : Int) : Nat → Int → List (Int × Int)
  | 0, _ => []
  | fuel + 1, since =>
    if since + day ≤ final then
      (since, since + day) :: scheduleWindowsAux final fuel (since + day)
    else
      []

/-- The list of `[since, until)` windows scheduled by lines 86-100 of
`collect_security_logs`, in scheduling order. -/
def scheduleWindows (since final : Int) : List (Int × Int) :=
  scheduleWindowsAux final ((final - since).toNat / day.toNat + 1) since

/-- Descending-by-`date` ordering on records, the key order of
`sorted(response.json(), key=lambda log: log["date"], reverse=True)`. -/
def dateGE (a b : SecurityRecord) : Prop := b.date ≤ a.date

instance : DecidableRel dateGE := fun a b => inferInstanceAs (Decidable (b.date ≤ a.date))

instance : IsTotal SecurityRecord dateGE := ⟨fun a b => le_total b.date a.date⟩

instance : IsTrans SecurityRecord dateGE := ⟨fun _ _ _ h1 h2 => le_trans h2 h1⟩

/-- Line 123: `sorted(response.json(), key=lambda log: log["date"], reverse=True)`,
a descending sort of the batch by its `date` field. -/
def sortByDateDesc (rs : List SecurityRecord) : List SecurityRecord :=
  List.insertionSort dateGE rs

/-- One turn of the body of the `while pending` loop (lines 107-134), given
the scheduler's choices for the round and the per-window fetch results `fr`.
Returns the new state and the events of the round.

* Lines 109-120 (`for task in done`): in streaming mode each completed
  response is yielded; in backfill mode a truthy (non-empty) body is appended
  to the buffer `b` and a falsy body only logs a warning.
* Lines 122-134 (`if streaming and done`): `response` still names the last
  task processed by the `for` loop; its body is sorted descending by `date`.
  An empty batch sleeps 5 seconds and leaves `d` unchanged; otherwise `d`
  becomes `(newest date, now)`.  Either way one new fetch task for the window
  in `d` is added to `pending`. -/
def doRound (streaming : Bool) (fr : Int × Int → Response) (st : CollectState)
    (o : RoundOracle) : CollectState × List GEvent :=
  if streaming then
    let yields := o.done.map fun w => GEvent.yielded (fr w)
    match o.done.getLast? with
    | none => ({ st with pending := o.rest }, yields)
    | some lastW =>
      match sortByDateDesc (fr lastW).body with
      | [] =>
        ({ st with pending := o.rest ++ [st.d] },
         yields ++ [GEvent.slept 5, GEvent.fetchIssued st.d])
      | top :: _ =>
        ({ pending := o.rest ++ [(top.date, o.now)], b := st.b, d := (top.date, o.now) },
         yields ++ [GEvent.fetchIssued (top.date, o.now)])
  else
    ({ st with
        pending := o.rest
        b := o.done.foldl
          (fun acc w => if (fr w).body = [] then acc else acc ++ (fr w).body) st.b },
     [])

/-- The `while pending` loop (lines 105-140), run against a finite list of
scheduler rounds.  The loop condition is checked before every round; an
interrupt delivered at the round's suspension point ends the loop as the
`try/except` at lines 136-140 dictates. -/
def runLoop (streaming : Bool) (fr : Int × Int → Response) :
    List RoundOracle → CollectState → RunOut
  | [], st =>
    if st.pending = [] then ⟨[], [], st, LoopEnd.drained⟩
    else ⟨[], [], st, LoopEnd.fuelOut⟩
  | o :: os, st =>
    if st.pending = [] then ⟨[], [], st, LoopEnd.drained⟩
    else
      match o.interrupt with
      | some Interrupt.cancelled => ⟨[], [], st, LoopEnd.cancelled⟩
      | some Interrupt.exn => ⟨[], [], st, LoopEnd.erroredLogged⟩
      | some Interrupt.baseExn => ⟨[], [], st, LoopEnd.raised⟩
      | none =>
        let step := doRound streaming fr st o
        let out := runLoop streaming fr os step.1
        ⟨step.2 ++ out.events, o.done ++ out.processed, out.finalState, out.ending⟩

/-- A scheduler trace is valid when, at every round it actually drives (loop
still running, no interrupt), `done` together with `rest` is a permutation of
the current pending set -- `asyncio.wait` partitions the awaited tasks. -/
def validRun (streaming : Bool) (fr : Int × Int → Response) :
    List RoundOracle → CollectState → Bool
  | [], _ => true
  | o :: os, st =>
    if st.pending = [] then true
    else
      match o.interrupt with
      | some _ => true
      | none =>
        decide (List.Perm (o.done ++ o.rest) st.pending) &&
          validRun streaming fr os (doRound streaming fr st o).1

/-- The state of `collect_security_logs` when the `while pending` loop is
first entered: `pending` holds one fetch task per scheduled window, `b` is
empty, and the request dict `d` holds the last scheduled window (its value is
never read when no window was scheduled, since the loop body then never runs;
the fallback is arbitrary). -/
def initialState (since finalT : Int) : CollectState :=
  { pending := scheduleWindows since finalT
    b := []
    d := (scheduleWindows since finalT).getLastD (since, since + day) }

/-- `ThoughtSpotAPIClient.collect_security_logs` (lines 66-146), as the
observable outcome of one (possibly partial) execution.

* `untilArg = none` selects streaming mode and `final = now0`
  (`dt.datetime.now` at line 80); `untilArg = some u` selects backfill mode
  with `final = u` (lines 78-84).
* Lines 86-100 schedule one fetch per 1-day window (`fetchIssued` events).
* Lines 105-140 are `runLoop` against the scheduler trace `os`.
* Lines 142-146 run whenever the function reaches them -- after a drained
  loop, and equally after a caught `CancelledError` or a caught, logged
  `Exception`: the synthesised response `r` gets status 200
  (`httpx.codes.PARTIAL_CONTENT` until then) and the JSON serialisation of
  the merged buffer as body, and is yielded once.  They do not run when a
  `BaseException` propagates, and a `fuelOut` trace has not reached them. -/
def collect_security_logs (since : Int) (untilArg : Option Int) (now0 : Int)
    (fr : Int × Int → Response) (os : List RoundOracle) : RunOut :=
  let streaming := untilArg.isNone
  let finalT := untilArg.getD now0
  let out := runLoop streaming fr os (initialState since finalT)
  let evs := (scheduleWindows since finalT).map GEvent.fetchIssued ++ out.events
  if streaming = false ∧ out.ending ≠ LoopEnd.fuelOut ∧ out.ending ≠ LoopEnd.raised then
    { events := evs ++ [GEvent.yielded ⟨200, out.finalState.b⟩]
      processed := out.processed
      finalState := out.finalState
      ending := out.ending }
  else
    { events := evs
      processed := out.processed
      finalState := out.finalState
      ending := out.ending }

/-- What one iteration of the keep-alive loop observes at its probe:
`ok` a 2xx response, `httpErr` an HTTP error status (`raise_for_status`
raises `httpx.HTTPStatusError`), `transportErr` a transport failure (also an
`httpx.HTTPError`), `otherExn` any exception that is not an `httpx.HTTPError`
(caught by neither handler), `cancelSignal` an `asyncio.CancelledError`
delivered at the suspension point. -/
inductive ProbeSignal where
  | ok
  | httpErr
  | transportErr
  | otherExn
  | cancelSignal
deriving Repr, DecidableEq

/-- Observable events of `is_active_check`: the `idx`-th liveness probe
(`self.get("callosum/v1/session/isactive")`), a logged warning, and
`await asyncio.sleep(..)`. -/
inductive KAEvent where
  | probe (idx : Nat)
  | warned
  | slept (seconds : Nat)
deriving Repr, DecidableEq

/-- How a (prefix of a) run of `is_active_check` ended: still inside
`while True`, exited cleanly through `except asyncio.CancelledError: pass`,
or terminated by an exception no handler matches. -/
inductive KAEnd where
  | stillRunning
  | exitedCleanly
  | raised
deriving Repr, DecidableEq

/-- `ThoughtSpotAPIClient.is_active_check` (lines 32-45), iterated from probe
index `k` for `fuel` loop iterations.  Each iteration probes the liveness
endpoint; an `httpx.HTTPError` (HTTP or transport) is caught and logged by
the inner `try` (lines 36-40) and the loop then sleeps 60 seconds and
retries; a non-`httpx.HTTPError` exception propagates (only
`asyncio.CancelledError` is caught by the outer `try`, line 44, which makes
the coroutine return cleanly). -/
def isActiveCheckAux (sig : Nat → ProbeSignal) : Nat → Nat → List KAEvent × KAEnd
  | _, 0 => ([], KAEnd.stillRunning)
  | k, fuel + 1 =>
    match sig k with
    | ProbeSignal.cancelSignal => ([], KAEnd.exitedCleanly)
    | ProbeSignal.otherExn => ([KAEvent.probe k], KAEnd.raised)
    | ProbeSignal.ok =>
      let rest := isActiveCheckAux sig (k + 1) fuel
      (KAEvent.probe k :: KAEvent.slept 60 :: rest.1, rest.2)
    | ProbeSignal.httpErr =>
      let rest := isActiveCheckAux sig (k + 1) fuel
      (KAEvent.probe k :: KAEvent.warned :: KAEvent.slept 60 :: rest.1, rest.2)
    | ProbeSignal.transportErr =>
      let rest := isActiveCheckAux sig (k + 1) fuel
      (KAEvent.probe k :: KAEvent.warned :: KAEvent.slept 60 :: rest.1, rest.2)

/-- `is_active_check`, started at its first probe. -/
def is_active_check (sig : Nat → ProbeSignal) (fuel : Nat) : List KAEvent × KAEnd :=
  isActiveCheckAux sig 0 fuel

/-- `httpx.Response.is_success`: status code in `[200, 300)`. -/
def isSuccess (status : Nat) : Bool := 200 ≤ status && status < 300

/-- The authentication response of `api/rest/2.0/auth/token/full`: a status
code and the `token` field of its JSON body, when present. -/
structure AuthResponse where
  status : Nat
  token : Option String
deriving Repr, DecidableEq

/-- The session's header map, in insertion order. -/
abbrev Headers := List (String × String)

/-- `self.headers["Authorization"] = value`: replace the existing entry, or
append one. -/
def setHeader : Headers → String → String → Headers
  | [], k, v => [(k, v)]
  | (k', v') :: hs, k, v =>
    if k' = k then (k, v) :: hs else (k', v') :: setHeader hs k v

/-- `ThoughtSpotAPIClient.login` (lines 47-57), applied to the session's
current headers and the authentication response.  On a 2xx response the
token from the JSON body is installed as `Authorization: Bearer <token>`
(line 55; `none` models the `KeyError` when a 2xx body lacks the field);
otherwise the headers are untouched.  Either way the raw response is
returned and no error is raised from a non-2xx status. -/
def login (hs : Headers) (r : AuthResponse) : Option (Headers × AuthResponse) :=
  if isSuccess r.status then
    match r.token with
    | some t => some (setHeader hs "Authorization" ("Bearer " ++ t), r)
    | none => none
  else
    some (hs, r)

/-- Pairwise disjointness of a list of half-open `[since, until)` windows. -/
def windowsDisjoint : List (Int × Int) → Bool
  | [] => true
  | w :: ws =>
    ws.all (fun w' => decide (w.2 ≤ w'.1 ∨ w'.2 ≤ w.1)) && windowsDisjoint ws

/-- Recognises `yield` events. -/
def isYield : GEvent → Bool
  | GEvent.yielded _ => true
  | _ => false

/-- Recognises probe events of the keep-alive loop. -/
def isProbe : KAEvent → Bool
  | KAEvent.probe _ => true
  | _ => false

/-- Recognises the 60-second sleeps of the keep-alive loop. -/
def isSleep60 : KAEvent → Bool
  | KAEvent.slept s => s == 60
  | _ => false

/-! ### Basic facts about the window-scheduling loop -/

lemma scheduleWindowsAux_head (final : Int) (fuel : Nat) (since : Int) (w : Int × Int)
    (ws : List (Int × Int)) (h : scheduleWindowsAux final fuel since = w :: ws) :
    w.1 = since := by
  cases fuel with
  | zero => simp [scheduleWindowsAux] at h
  | succ n =>
    rw [scheduleWindowsAux] at h
    split at h
    · simp only [List.cons.injEq] at h
      rw [← h.1]
    · simp at h

lemma scheduleWindowsAux_mem (final : Int) : ∀ (fuel : Nat) (since : Int) (w : Int × Int),
    w ∈ scheduleWindowsAux final fuel since →
    w.2 = w.1 + day ∧ since ≤ w.1 ∧ w.2 ≤ final := by
  intro fuel
  induction fuel with
  | zero => intro since w hw; simp [scheduleWindowsAux] at hw
  | succ n ih =>
    intro since w hw
    rw [scheduleWindowsAux] at hw
    split at hw
    · rename_i hc
      rcases List.mem_cons.mp hw with h | h
      · subst h; exact ⟨rfl, le_refl _, hc⟩
      · obtain ⟨h1, h2, h3⟩ := ih (since + day) w h
        have hd : day = 86400 := rfl
        exact ⟨h1, by omega, h3⟩
    · simp at hw

lemma scheduleWindowsAux_chain (final : Int) : ∀ (fuel : Nat) (since : Int),
    List.Chain' (fun w1 w2 => w2.1 = w1.2) (scheduleWindowsAux final fuel since) := by
  intro fuel
  induction fuel with
  | zero => intro since; simp [scheduleWindowsAux]
  | succ n ih =>
    intro since
    rw [scheduleWindowsAux]
    split
    · refine List.chain'_cons'.mpr ⟨?_, ih (since + day)⟩
      intro y hy
      cases hEq : scheduleWindowsAux final n (since + day) with
      | nil => rw [hEq] at hy; simp at hy
      | cons a l =>
        rw [hEq] at hy
        simp at hy
        subst hy
        exact scheduleWindowsAux_head final n (since + day) a l hEq
    · simp

lemma runLoop_nil_pending (streaming : Bool) (fr : Int × Int → Response)
    (os : List RoundOracle) (st : CollectState) (h : st.pending = []) :
    runLoop streaming fr os st = ⟨[], [], st, LoopEnd.drained⟩ := by
  cases os <;> simp [runLoop, h]

/-! ### C2 — window partitioning -/

/-- C2 (counterexample): for `since = 2024-01-01T00:00Z` (`1704067200`) and
`until = 2024-01-03T12:00Z` (`1704283200`), the scheduling loop produces only
the 2 full-day windows `[01-01, 01-02)` and `[01-02, 01-03)`; it does not
schedule 3 windows, and no window truncated to `until` covers
`[01-03, 01-03T12:00)`. -/
theorem c2_counterexample :
    scheduleWindows 1704067200 1704283200 =
      [(1704067200, 1704153600), (1704153600, 1704240000)] ∧
    (scheduleWindows 1704067200 1704283200).length ≠ 3 ∧
    ((1704240000 : Int), (1704283200 : Int)) ∉ scheduleWindows 1704067200 1704283200 := by
  refine ⟨by decide, by decide, by decide⟩

/-- C2 (amended): for `since = 2024-01-01T00:00Z` and
`until = 2024-01-03T12:00Z`, `collect_security_logs` schedules exactly 2
day-windows, `[01-01, 01-02)` and `[01-02, 01-03)`.  In general every
scheduled window is a full 1-day window `[s, s + 1d)` with `since ≤ s` and
`s + 1d ≤ until`, consecutive windows are adjacent, and a trailing remainder
shorter than one day — here `[01-03, 01-03T12:00)` — is dropped entirely
rather than truncated to `until`. -/
theorem c2_window_partitioning :
    (∀ since final : Int, ∀ w ∈ scheduleWindows since final,
        w.2 = w.1 + day ∧ since ≤ w.1 ∧ w.2 ≤ final) ∧
    (∀ since final : Int,
        List.Chain' (fun w1 w2 => w2.1 = w1.2) (scheduleWindows since final)) ∧
    scheduleWindows 1704067200 1704283200 =
      [(1704067200, 1704153600), (1704153600, 1704240000)] := by
  refine ⟨?_, ?_, by decide⟩
  · intro since final w hw
    exact scheduleWindowsAux_mem final _ since w hw
  · intro since final
    exact scheduleWindowsAux_chain final _ since

/-- Witness for `c2_window_partitioning` at the spec's example input. -/
theorem c2_window_partitioning_witness :
    (((1704067200 : Int), (1704153600 : Int)) ∈ scheduleWindows 1704067200 1704283200) ∧
    ((1704153600 : Int) = 1704067200 + day ∧ (1704067200 : Int) ≤ 1704067200 ∧
      (1704153600 : Int) ≤ 1704283200) :=
  ⟨by decide,
   c2_window_partitioning.1 1704067200 1704283200 (1704067200, 1704153600) (by decide)⟩

/-! ### C10 — sub-day backfill range -/

/-- C10: in backfill mode, when the requested range is shorter than one day
(`since + 1d > until`), no fetch is ever issued and `collect_security_logs`
still yields exactly one response with status 200 and the empty array as
body. -/
theorem c10_subday_backfill (since untilT now0 : Int) (fr : Int × Int → Response)
    (os : List RoundOracle) (h : untilT < since + day) :
    collect_security_logs since (some untilT) now0 fr os =
      ⟨[GEvent.yielded ⟨200, []⟩], [], ⟨[], [], (since, since + day)⟩, LoopEnd.drained⟩ := by
  have hw : scheduleWindows since untilT = [] := by
    simp only [scheduleWindows, scheduleWindowsAux]
    rw [if_neg]
    omega
  have hst : initialState since untilT = ⟨[], [], (since, since + day)⟩ := by
    simp [initialState, hw]
  have hrun : runLoop false fr os ⟨[], [], (since, since + day)⟩ =
      ⟨[], [], ⟨[], [], (since, since + day)⟩, LoopEnd.drained⟩ :=
    runLoop_nil_pending false fr os _ rfl
  simp [collect_security_logs, hst, hrun, hw]

/-- Witness for `c10_subday_backfill` on a 1-second range. -/
theorem c10_subday_backfill_witness :
    ((1 : Int) < 0 + day) ∧
    collect_security_logs 0 (some 1) 0 (fun _ => ⟨200, []⟩) [] =
      ⟨[GEvent.yielded ⟨200, []⟩], [], ⟨[], [], (0, 0 + day)⟩, LoopEnd.drained⟩ :=
  ⟨by decide, c10_subday_backfill 0 1 0 (fun _ => ⟨200, []⟩) [] (by decide)⟩

/-! ### C3 — login and token installation -/

lemma setHeader_lookup (hs : Headers) (k v : String) :
    (setHeader hs k v).lookup k = some v := by
  induction hs with
  | nil => simp [setHeader, List.lookup]
  | cons p hs ih =>
    obtain ⟨k', v'⟩ := p
    by_cases h : k' = k
    · simp [setHeader, h, List.lookup]
    · have h2 : (k == k') = false := beq_eq_false_iff_ne.mpr (Ne.symm h)
      simp [setHeader, h, List.lookup, h2, ih]

/-- C3: for every login call, if the authentication response is 2xx and
carries a token, the session's headers afterwards map `Authorization` to
`Bearer <token>`; a non-2xx response leaves the headers exactly as they were
(so a prior absence of `Authorization` is preserved), no exception is raised,
and in both cases the raw response is returned unchanged. -/
theorem c3_login_token_installation (hs : Headers) (r : AuthResponse) :
    (∀ t : String, isSuccess r.status = true → r.token = some t →
        login hs r = some (setHeader hs "Authorization" ("Bearer " ++ t), r) ∧
        (setHeader hs "Authorization" ("Bearer " ++ t)).lookup "Authorization" =
          some ("Bearer " ++ t)) ∧
    (isSuccess r.status = false → login hs r = some (hs, r)) := by
  constructor
  · intro t hsucc htok
    refine ⟨?_, setHeader_lookup hs _ _⟩
    simp [login, hsucc, htok]
  · intro hfail
    simp [login, hfail]

/-- Witness for `c3_login_token_installation`: a successful login on a fresh
session installs the bearer token. -/
theorem c3_login_token_installation_witness :
    (isSuccess 200 = true) ∧
    (login [] ⟨200, some "tok"⟩ =
        some ([("Authorization", "Bearer " ++ "tok")], ⟨200, some "tok"⟩) ∧
      ([("Authorization", "Bearer " ++ "tok")] : Headers).lookup "Authorization" =
        some ("Bearer " ++ "tok")) :=
  ⟨by decide, (c3_login_token_installation [] ⟨200, some "tok"⟩).1 "tok" (by decide) rfl⟩

/-! ### C5 — keep-alive resilience -/

/-- The events of `n` consecutive failed keep-alive iterations starting at
probe index `s`: each one probes, logs a warning, sleeps 60 seconds. -/
def failTrace (s : Nat) : Nat → List KAEvent
  | 0 => []
  | n + 1 =>
    KAEvent.probe s :: KAEvent.warned :: KAEvent.slept 60 :: failTrace (s + 1) n

lemma isActiveCheckAux_ok (sig : Nat → ProbeSignal) (k fuel : Nat)
    (h : sig k = ProbeSignal.ok) :
    isActiveCheckAux sig k (fuel + 1) =
      (KAEvent.probe k :: KAEvent.slept 60 :: (isActiveCheckAux sig (k + 1) fuel).1,
       (isActiveCheckAux sig (k + 1) fuel).2) := by
  simp [isActiveCheckAux, h]

lemma isActiveCheckAux_httpErr (sig : Nat → ProbeSignal) (k fuel : Nat)
    (h : sig k = ProbeSignal.httpErr) :
    isActiveCheckAux sig k (fuel + 1) =
      (KAEvent.probe k :: KAEvent.warned :: KAEvent.slept 60 ::
         (isActiveCheckAux sig (k + 1) fuel).1,
       (isActiveCheckAux sig (k + 1) fuel).2) := by
  simp [isActiveCheckAux, h]

lemma isActiveCheckAux_transportErr (sig : Nat → ProbeSignal) (k fuel : Nat)
    (h : sig k = ProbeSignal.transportErr) :
    isActiveCheckAux sig k (fuel + 1) =
      (KAEvent.probe k :: KAEvent.warned :: KAEvent.slept 60 ::
         (isActiveCheckAux sig (k + 1) fuel).1,
       (isActiveCheckAux sig (k + 1) fuel).2) := by
  simp [isActiveCheckAux, h]

lemma isActiveCheckAux_failThenOk (sig : Nat → ProbeSignal) :
    ∀ (n s : Nat),
      (∀ k, k < n →
        sig (s + k) = ProbeSignal.httpErr ∨ sig (s + k) = ProbeSignal.transportErr) →
      sig (s + n) = ProbeSignal.ok →
      isActiveCheckAux sig s (n + 1) =
        (failTrace s n ++ [KAEvent.probe (s + n), KAEvent.slept 60], KAEnd.stillRunning) := by
  intro n
  induction n with
  | zero =>
    intro s hfail hok
    rw [Nat.add_zero] at hok
    rw [isActiveCheckAux_ok sig s 0 hok]
    simp [isActiveCheckAux, failTrace]
  | succ n ih =>
    intro s hfail hok
    have h0 := hfail 0 (Nat.succ_pos n)
    rw [Nat.add_zero] at h0
    have hrec := ih (s + 1)
      (fun k hk => by
        have hx := hfail (k + 1) (Nat.succ_lt_succ hk)
        rwa [show s + (k + 1) = s + 1 + k by omega] at hx)
      (by rwa [show s + 1 + n = s + (n + 1) by omega])
    rcases h0 with h0 | h0
    · rw [isActiveCheckAux_httpErr sig s (n + 1) h0, hrec]
      simp [failTrace, show s + (n + 1) = s + 1 + n by omega]
    · rw [isActiveCheckAux_transportErr sig s (n + 1) h0, hrec]
      simp [failTrace, show s + (n + 1) = s + 1 + n by omega]

/-- C5: the keep-alive loop of `is_active_check` never terminates because of
a failed liveness check.  If the probe fails (HTTP error or transport error)
at the first `N` iterations and succeeds at iteration `N`, then after those
`N + 1` iterations the loop has attempted exactly `N + 1` probes, each
followed by a 60-second sleep (warnings logged on the failures), and the loop
is still running. -/
theorem c5_keepalive_resilience (sig : Nat → ProbeSignal) (N : Nat)
    (hfail : ∀ k, k < N →
      sig k = ProbeSignal.httpErr ∨ sig k = ProbeSignal.transportErr)
    (hok : sig N = ProbeSignal.ok) :
    is_active_check sig (N + 1) =
      (failTrace 0 N ++ [KAEvent.probe N, KAEvent.slept 60], KAEnd.stillRunning) ∧
    (is_active_check sig (N + 1)).1.countP isProbe = N + 1 ∧
    (is_active_check sig (N + 1)).1.countP isSleep60 = N + 1 := by
  have h := isActiveCheckAux_failThenOk sig N 0 (by simpa using hfail) (by simpa using hok)
  have hmain : is_active_check sig (N + 1) =
      (failTrace 0 N ++ [KAEvent.probe N, KAEvent.slept 60], KAEnd.stillRunning) := by
    simpa [is_active_check] using h
  have hProbe : ∀ s n, (failTrace s n).countP isProbe = n := by
    intro s n
    induction n generalizing s with
    | zero => simp [failTrace]
    | succ m ih => simp [failTrace, List.countP_cons, isProbe, ih]
  have hSleep : ∀ s n, (failTrace s n).countP isSleep60 = n := by
    intro s n
    induction n generalizing s with
    | zero => simp [failTrace]
    | succ m ih => simp [failTrace, List.countP_cons, isSleep60, ih]
  refine ⟨hmain, ?_, ?_⟩ <;>
    simp [hmain, List.countP_append, List.countP_cons, isProbe, isSleep60, hProbe, hSleep]

/-- A liveness endpoint that fails twice (HTTP error, then transport error)
and then succeeds; used to witness `c5_keepalive_resilience`. -/
def c5sig (k : Nat) : ProbeSignal :=
  [ProbeSignal.httpErr, ProbeSignal.transportErr, ProbeSignal.ok].getD k ProbeSignal.ok

/-- Witness for `c5_keepalive_resilience` with `N = 2` consecutive failures. -/
theorem c5_keepalive_resilience_witness :
    (∀ k, k < 2 → c5sig k = ProbeSignal.httpErr ∨ c5sig k = ProbeSignal.transportErr) ∧
    c5sig 2 = ProbeSignal.ok ∧
    (is_active_check c5sig 3 =
        (failTrace 0 2 ++ [KAEvent.probe 2, KAEvent.slept 60], KAEnd.stillRunning) ∧
      (is_active_check c5sig 3).1.countP isProbe = 3 ∧
      (is_active_check c5sig 3).1.countP isSleep60 = 3) :=
  ⟨by decide, by decide, c5_keepalive_resilience c5sig 2 (by decide) (by decide)⟩

/-! ### Facts about the descending sort of a batch -/

lemma sortByDateDesc_perm (rs : List SecurityRecord) :
    List.Perm (sortByDateDesc rs) rs :=
  List.perm_insertionSort dateGE rs

lemma sortByDateDesc_sorted (rs : List SecurityRecord) :
    List.Sorted dateGE (sortByDateDesc rs) :=
  List.sorted_insertionSort dateGE rs

lemma sortByDateDesc_eq_nil (rs : List SecurityRecord)
    (h : sortByDateDesc rs = []) : rs = [] :=
  List.Perm.eq_nil (h ▸ sortByDateDesc_perm rs).symm

/-- The head of the descending sort is a record of the batch whose `date` is
maximal in the batch. -/
lemma sortByDateDesc_head_max (rs : List SecurityRecord) (top : SecurityRecord)
    (rest : List SecurityRecord) (h : sortByDateDesc rs = top :: rest) :
    top ∈ rs ∧ ∀ x ∈ rs, x.date ≤ top.date := by
  have hperm := sortByDateDesc_perm rs
  rw [h] at hperm
  constructor
  · exact hperm.mem_iff.mp (List.mem_cons_self top rest)
  · intro x hx
    rcases List.mem_cons.mp (hperm.mem_iff.mpr hx) with hx' | hx'
    · rw [hx']
    · have hs := sortByDateDesc_sorted rs
      rw [h] at hs
      exact List.rel_of_sorted_cons hs x hx'

/-! ### C6 — streaming continuation window -/

/-- C6: in streaming mode, after a completion round whose last processed
batch is non-empty, the next scheduled fetch window has `since` equal to the
newest (maximal) `date` among the batch's records and `until` equal to the
current time `now`: the request dict `d` is updated to that window, the new
fetch task covers it, and the round ends by issuing that fetch. -/
theorem c6_streaming_continuation (fr : Int × Int → Response) (st : CollectState)
    (o : RoundOracle) (lastW : Int × Int) (top : SecurityRecord)
    (rest' : List SecurityRecord)
    (hlast : o.done.getLast? = some lastW)
    (hsort : sortByDateDesc (fr lastW).body = top :: rest') :
    (doRound true fr st o).1.d = (top.date, o.now) ∧
    top ∈ (fr lastW).body ∧
    (∀ x ∈ (fr lastW).body, x.date ≤ top.date) ∧
    (doRound true fr st o).1.pending = o.rest ++ [(top.date, o.now)] ∧
    (doRound true fr st o).2 =
      o.done.map (fun w => GEvent.yielded (fr w)) ++
        [GEvent.fetchIssued (top.date, o.now)] := by
  obtain ⟨hmem, hmax⟩ := sortByDateDesc_head_max _ top rest' hsort
  refine ⟨?_, hmem, hmax, ?_, ?_⟩ <;> simp [doRound, hlast, hsort]

/-- Fetch results for the `c6_streaming_continuation` witness: a batch with
`date` values 5, 9, 7. -/
def c6fr : Int × Int → Response :=
  fun _ => ⟨200, [⟨5, "x"⟩, ⟨9, "y"⟩, ⟨7, "z"⟩]⟩

/-- Scheduler round for the `c6_streaming_continuation` witness. -/
def c6o : RoundOracle := ⟨[(0, day)], [], 999, none⟩

/-- State before the round for the `c6_streaming_continuation` witness. -/
def c6st : CollectState := ⟨[(0, day)], [], (0, day)⟩

/-- Witness for `c6_streaming_continuation`: the batch with dates `[5, 9, 7]`
makes the next window `(9, now)`. -/
theorem c6_streaming_continuation_witness :
    (c6o.done.getLast? = some (0, day) ∧
      sortByDateDesc (c6fr (0, day)).body = ⟨9, "y"⟩ :: [⟨7, "z"⟩, ⟨5, "x"⟩]) ∧
    ((doRound true c6fr c6st c6o).1.d = ((9 : Int), (999 : Int)) ∧
      (⟨9, "y"⟩ : SecurityRecord) ∈ (c6fr (0, day)).body ∧
      (∀ x ∈ (c6fr (0, day)).body, x.date ≤ (9 : Int)) ∧
      (doRound true c6fr c6st c6o).1.pending = c6o.rest ++ [((9 : Int), (999 : Int))] ∧
      (doRound true c6fr c6st c6o).2 =
        c6o.done.map (fun w => GEvent.yielded (c6fr w)) ++
          [GEvent.fetchIssued ((9 : Int), (999 : Int))]) :=
  ⟨⟨by decide, by decide⟩,
   c6_streaming_continuation c6fr c6st c6o (0, day) ⟨9, "y"⟩ [⟨7, "z"⟩, ⟨5, "x"⟩]
     (by decide) (by decide)⟩

/-! ### C9 — empty-batch backoff -/

/-- C9: in streaming mode, a completion round whose last processed batch has
zero records sleeps 5 seconds before the next fetch is issued: the round's
events end with `slept 5` followed by `fetchIssued`, and the request dict
`d` (hence the re-fetched window) is unchanged. -/
theorem c9_empty_batch_backoff (fr : Int × Int → Response) (st : CollectState)
    (o : RoundOracle) (lastW : Int × Int)
    (hlast : o.done.getLast? = some lastW)
    (hempty : (fr lastW).body = []) :
    (doRound true fr st o).2 =
      o.done.map (fun w => GEvent.yielded (fr w)) ++
        [GEvent.slept 5, GEvent.fetchIssued st.d] ∧
    (doRound true fr st o).1.pending = o.rest ++ [st.d] ∧
    (doRound true fr st o).1.d = st.d := by
  have hs : sortByDateDesc (fr lastW).body = [] := by rw [hempty]; rfl
  refine ⟨?_, ?_, ?_⟩ <;> simp [doRound, hlast, hs]

/-- Fetch results for the `c9_empty_batch_backoff` witness: every window
returns an empty batch. -/
def c9fr : Int × Int → Response := fun _ => ⟨200, []⟩

/-- Scheduler round for the `c9_empty_batch_backoff` witness. -/
def c9o : RoundOracle := ⟨[(0, day)], [], 555, none⟩

/-- State before the round for the `c9_empty_batch_backoff` witness. -/
def c9st : CollectState := ⟨[(0, day)], [], (0, day)⟩

/-- Witness for `c9_empty_batch_backoff`. -/
theorem c9_empty_batch_backoff_witness :
    (c9o.done.getLast? = some (0, day) ∧ (c9fr (0, day)).body = []) ∧
    ((doRound true c9fr c9st c9o).2 =
        c9o.done.map (fun w => GEvent.yielded (c9fr w)) ++
          [GEvent.slept 5, GEvent.fetchIssued c9st.d] ∧
      (doRound true c9fr c9st c9o).1.pending = c9o.rest ++ [c9st.d] ∧
      (doRound true c9fr c9st c9o).1.d = c9st.d) :=
  ⟨⟨by decide, by decide⟩,
   c9_empty_batch_backoff c9fr c9st c9o (0, day) (by decide) (by decide)⟩

/-! ### Projections of `collect_security_logs` onto the loop run -/

lemma collect_ending (since : Int) (untilArg : Option Int) (now0 : Int)
    (fr : Int × Int → Response) (os : List RoundOracle) :
    (collect_security_logs since untilArg now0 fr os).ending =
      (runLoop untilArg.isNone fr os (initialState since (untilArg.getD now0))).ending := by
  simp only [collect_security_logs]
  split <;> rfl

lemma collect_finalState (since : Int) (untilArg : Option Int) (now0 : Int)
    (fr : Int × Int → Response) (os : List RoundOracle) :
    (collect_security_logs since untilArg now0 fr os).finalState =
      (runLoop untilArg.isNone fr os (initialState since (untilArg.getD now0))).finalState := by
  simp only [collect_security_logs]
  split <;> rfl

lemma collect_processed (since : Int) (untilArg : Option Int) (now0 : Int)
    (fr : Int × Int → Response) (os : List RoundOracle) :
    (collect_security_logs since untilArg now0 fr os).processed =
      (runLoop untilArg.isNone fr os (initialState since (untilArg.getD now0))).processed := by
  simp only [collect_security_logs]
  split <;> rfl

/-! ### C7 — cancellation cleanliness -/

lemma isActiveCheckAux_cancel (sig : Nat → ProbeSignal) :
    ∀ (k s fuel : Nat), k < fuel →
      (∀ j, j < k →
        sig (s + j) ≠ ProbeSignal.cancelSignal ∧ sig (s + j) ≠ ProbeSignal.otherExn) →
      sig (s + k) = ProbeSignal.cancelSignal →
      (isActiveCheckAux sig s fuel).2 = KAEnd.exitedCleanly := by
  intro k
  induction k with
  | zero =>
    intro s fuel hk hpre hc
    rw [Nat.add_zero] at hc
    cases fuel with
    | zero => omega
    | succ f => simp [isActiveCheckAux, hc]
  | succ k ih =>
    intro s fuel hk hpre hc
    cases fuel with
    | zero => omega
    | succ f =>
      have h0 := hpre 0 (Nat.succ_pos k)
      rw [Nat.add_zero] at h0
      have hrec := ih (s + 1) f (by omega)
        (fun j hj => by
          have hx := hpre (j + 1) (Nat.succ_lt_succ hj)
          rwa [show s + (j + 1) = s + 1 + j by omega] at hx)
        (by rwa [show s + 1 + k = s + (k + 1) by omega])
      cases hsig : sig s with
      | cancelSignal => exact absurd hsig h0.1
      | otherExn => exact absurd hsig h0.2
      | ok => rw [isActiveCheckAux_ok sig s f hsig]; exact hrec
      | httpErr => rw [isActiveCheckAux_httpErr sig s f hsig]; exact hrec
      | transportErr => rw [isActiveCheckAux_transportErr sig s f hsig]; exact hrec

lemma runLoop_no_raise (streaming : Bool) (fr : Int × Int → Response) :
    ∀ (os : List RoundOracle) (st : CollectState),
      (∀ o ∈ os, o.interrupt ≠ some Interrupt.baseExn) →
      (runLoop streaming fr os st).ending ≠ LoopEnd.raised := by
  intro os
  induction os with
  | nil =>
    intro st _
    by_cases hp : st.pending = [] <;> simp [runLoop, hp]
  | cons o os ih =>
    intro st h
    by_cases hp : st.pending = []
    · simp [runLoop, hp]
    · have ho := h o (List.mem_cons_self o os)
      cases hi : o.interrupt with
      | none =>
        simp only [runLoop, hp, hi, if_neg]
        simp [hp]
        exact ih _ (fun o' ho' => h o' (List.mem_cons_of_mem o ho'))
      | some i =>
        cases i
        · simp [runLoop, hp, hi]
        · simp [runLoop, hp, hi]
        · rw [hi] at ho
          exact absurd rfl ho

/-- C7: cancelling the keep-alive task or the log-collection generator at a
suspension point never surfaces an error to the caller.  In
`is_active_check` a cancellation delivered at iteration `k` (after any mix
of successful and failed probes) makes the coroutine exit cleanly; in
`collect_security_logs` every scheduler trace whose interrupts are only
`CancelledError` / `Exception` (i.e. anything but an uncatchable
`BaseException`) ends the loop in a caught state, never by propagating an
error. -/
theorem c7_cancellation_cleanliness :
    (∀ (sig : Nat → ProbeSignal) (fuel k : Nat), k < fuel →
      (∀ j, j < k →
        sig j ≠ ProbeSignal.cancelSignal ∧ sig j ≠ ProbeSignal.otherExn) →
      sig k = ProbeSignal.cancelSignal →
      (is_active_check sig fuel).2 = KAEnd.exitedCleanly) ∧
    (∀ (since : Int) (untilArg : Option Int) (now0 : Int)
        (fr : Int × Int → Response) (os : List RoundOracle),
      (∀ o ∈ os, o.interrupt ≠ some Interrupt.baseExn) →
      (collect_security_logs since untilArg now0 fr os).ending ≠ LoopEnd.raised) := by
  constructor
  · intro sig fuel k hk hpre hc
    exact isActiveCheckAux_cancel sig k 0 fuel hk (by simpa using hpre) (by simpa using hc)
  · intro since untilArg now0 fr os h
    rw [collect_ending]
    exact runLoop_no_raise untilArg.isNone fr os _ h

/-- A probe stream that succeeds once and is then cancelled; used to witness
`c7_cancellation_cleanliness`. -/
def c7sig (k : Nat) : ProbeSignal :=
  [ProbeSignal.ok, ProbeSignal.cancelSignal].getD k ProbeSignal.ok

/-- A scheduler trace whose only interrupt is a cancellation; used to witness
`c7_cancellation_cleanliness`. -/
def c7os : List RoundOracle := [⟨[], [], 0, some Interrupt.cancelled⟩]

/-- Witness for `c7_cancellation_cleanliness`: cancellation at the second
keep-alive iteration, and a cancelled backfill collection. -/
theorem c7_cancellation_cleanliness_witness :
    ((1 : Nat) < 2 ∧ c7sig 1 = ProbeSignal.cancelSignal ∧
      (∀ o ∈ c7os, o.interrupt ≠ some Interrupt.baseExn)) ∧
    (is_active_check c7sig 2).2 = KAEnd.exitedCleanly ∧
    (collect_security_logs 0 (some day) 0 (fun _ => ⟨200, []⟩) c7os).ending ≠
      LoopEnd.raised :=
  ⟨⟨by decide, by decide, by decide⟩,
   c7_cancellation_cleanliness.1 c7sig 2 1 (by decide) (by decide) (by decide),
   c7_cancellation_cleanliness.2 0 (some day) 0 (fun _ => ⟨200, []⟩) c7os (by decide)⟩

/-! ### C4 — interruption of a backfill run -/

/-- Fetch results for the C4 run: the first window holds one record, the
second none. -/
def c4fr : Int × Int → Response :=
  fun w => if w = (0, day) then ⟨200, [⟨5, "a"⟩]⟩ else ⟨200, []⟩

/-- Scheduler trace for the C4 run: the first window's fetch completes,
then a cancellation is delivered while the second is still pending. -/
def c4os : List RoundOracle :=
  [⟨[(0, day)], [(day, 2 * day)], 0, none⟩, ⟨[], [], 0, some Interrupt.cancelled⟩]

/-- C4 (counterexample): a backfill run over two day-windows is cancelled
mid-flight — after the first fetch (with one record) was merged and while
the second is still pending — yet `collect_security_logs` still yields a
final synthesized status-200 response carrying the partially accumulated
buffer: the `yield` at lines 142-146 sits after the `except` handlers, so a
caught cancellation does not suppress it. -/
theorem c4_counterexample :
    validRun false c4fr c4os (initialState 0 (2 * day)) = true ∧
    (collect_security_logs 0 (some (2 * day)) 0 c4fr c4os).ending = LoopEnd.cancelled ∧
    (collect_security_logs 0 (some (2 * day)) 0 c4fr c4os).finalState.pending ≠ [] ∧
    GEvent.yielded ⟨200, [⟨5, "a"⟩]⟩ ∈
      (collect_security_logs 0 (some (2 * day)) 0 c4fr c4os).events := by
  refine ⟨by decide, by decide, by decide, by decide⟩

/-- C4 (amended): in backfill mode, if the collection loop is interrupted by
a cancellation signal or by any other caught exception before all windows
are drained, `collect_security_logs` still ends by yielding the final
synthesized status-200 response, whose body is whatever buffer had been
accumulated up to the interruption (only an uncatchable `BaseException`
or an unfinished trace suppresses the final yield). -/
theorem c4_interrupted_backfill_yields (since untilT now0 : Int)
    (fr : Int × Int → Response) (os : List RoundOracle)
    (h : (runLoop false fr os (initialState since untilT)).ending = LoopEnd.cancelled ∨
         (runLoop false fr os (initialState since untilT)).ending = LoopEnd.erroredLogged) :
    (collect_security_logs since (some untilT) now0 fr os).events =
      (scheduleWindows since untilT).map GEvent.fetchIssued ++
        (runLoop false fr os (initialState since untilT)).events ++
        [GEvent.yielded ⟨200,
          (runLoop false fr os (initialState since untilT)).finalState.b⟩] := by
  have h1 : (runLoop false fr os (initialState since untilT)).ending ≠ LoopEnd.fuelOut := by
    rcases h with h | h <;> simp [h]
  have h2 : (runLoop false fr os (initialState since untilT)).ending ≠ LoopEnd.raised := by
    rcases h with h | h <;> simp [h]
  simp [collect_security_logs, h1, h2]

/-- Witness for `c4_interrupted_backfill_yields` on the cancelled run of
`c4_counterexample`. -/
theorem c4_interrupted_backfill_yields_witness :
    ((runLoop false c4fr c4os (initialState 0 (2 * day))).ending = LoopEnd.cancelled ∨
      (runLoop false c4fr c4os (initialState 0 (2 * day))).ending = LoopEnd.erroredLogged) ∧
    (collect_security_logs 0 (some (2 * day)) 0 c4fr c4os).events =
      (scheduleWindows 0 (2 * day)).map GEvent.fetchIssued ++
        (runLoop false c4fr c4os (initialState 0 (2 * day))).events ++
        [GEvent.yielded ⟨200,
          (runLoop false c4fr c4os (initialState 0 (2 * day))).finalState.b⟩] :=
  ⟨Or.inl (by decide),
   c4_interrupted_backfill_yields 0 (2 * day) 0 c4fr c4os (Or.inl (by decide))⟩

/-! ### C8 — disjointness of the pending windows -/

lemma windowsDisjoint_iff : ∀ ws : List (Int × Int),
    windowsDisjoint ws = true ↔
      ws.Pairwise (fun a b => a.2 ≤ b.1 ∨ b.2 ≤ a.1) := by
  intro ws
  induction ws with
  | nil => simp [windowsDisjoint]
  | cons w ws ih =>
    simp [windowsDisjoint, List.all_eq_true, ih, List.pairwise_cons]

lemma scheduleWindowsAux_disjoint (final : Int) : ∀ (fuel : Nat) (since : Int),
    (scheduleWindowsAux final fuel since).Pairwise
      (fun a b => a.2 ≤ b.1 ∨ b.2 ≤ a.1) := by
  intro fuel
  induction fuel with
  | zero => intro since; simp [scheduleWindowsAux]
  | succ n ih =>
    intro since
    rw [scheduleWindowsAux]
    split
    · refine List.pairwise_cons.mpr ⟨?_, ih (since + day)⟩
      intro b hb
      obtain ⟨_, h2, _⟩ := scheduleWindowsAux_mem final n (since + day) b hb
      exact Or.inl h2
    · simp

lemma runLoop_backfill_disjoint (fr : Int × Int → Response) :
    ∀ (os : List RoundOracle) (st : CollectState),
      validRun false fr os st = true →
      st.pending.Pairwise (fun a b => a.2 ≤ b.1 ∨ b.2 ≤ a.1) →
      (runLoop false fr os st).finalState.pending.Pairwise
        (fun a b => a.2 ≤ b.1 ∨ b.2 ≤ a.1) := by
  intro os
  induction os with
  | nil =>
    intro st _ hp
    by_cases h : st.pending = [] <;> simp [runLoop, h, hp]
  | cons o os ih =>
    intro st hv hp
    by_cases h : st.pending = []
    · simp [runLoop, h, hp]
    · cases hi : o.interrupt with
      | some i => cases i <;> simp [runLoop, h, hi, hp]
      | none =>
        simp only [validRun, hi] at hv
        rw [if_neg h] at hv
        simp only [Bool.and_eq_true, decide_eq_true_eq] at hv
        obtain ⟨hperm, hv'⟩ := hv
        have hdr : (o.done ++ o.rest).Pairwise (fun a b => a.2 ≤ b.1 ∨ b.2 ≤ a.1) :=
          (List.Perm.pairwise_iff (fun hab => hab.symm) hperm).mpr hp
        have hrest : o.rest.Pairwise (fun a b => a.2 ≤ b.1 ∨ b.2 ≤ a.1) :=
          List.Pairwise.sublist (List.sublist_append_right o.done o.rest) hdr
        have hst' : ((doRound false fr st o).1).pending = o.rest := by
          simp [doRound]
        simp only [runLoop, hi]
        rw [if_neg h]
        exact ih (doRound false fr st o).1 hv' (hst' ▸ hrest)

/-- Fetch results for the C8 runs: every window returns an empty batch. -/
def c8fr : Int × Int → Response := fun _ => ⟨200, []⟩

/-- Scheduler trace for the C8 streaming counterexample: of the two backlog
windows, the first completes (empty) while the second stays in flight. -/
def c8os : List RoundOracle := [⟨[(0, day)], [(day, 2 * day)], 2 * day, none⟩]

/-- C8 (counterexample): in streaming mode the pending-set invariant fails.
With backlog windows `[0, 1d)` and `[1d, 2d)` both in flight, the first
completes with an empty batch; the continuation then re-issues a fetch for
the window still held in the request dict `d` — which is `[1d, 2d)`, the
very window of the other outstanding fetch — so the pending set holds two
outstanding fetches for one and the same (hence overlapping) window. -/
theorem c8_counterexample :
    validRun true c8fr c8os (initialState 0 (2 * day)) = true ∧
    (collect_security_logs 0 none (2 * day) c8fr c8os).finalState.pending =
      [(day, 2 * day), (day, 2 * day)] ∧
    windowsDisjoint
      (collect_security_logs 0 none (2 * day) c8fr c8os).finalState.pending = false := by
  refine ⟨by decide, by decide, by decide⟩

/-- C8 (amended): in backfill mode the invariant holds — after any valid
prefix of scheduler rounds the windows of the in-flight fetches are pairwise
disjoint (the initial day-windows are disjoint and the pending set only
shrinks).  In streaming mode the invariant can be violated: a continuation
fetch may cover a window identical to (or overlapping) one of a still
outstanding fetch, cf. `c8_counterexample`. -/
theorem c8_backfill_disjoint_invariant (since untilT now0 : Int)
    (fr : Int × Int → Response) (os : List RoundOracle)
    (hv : validRun false fr os (initialState since untilT) = true) :
    windowsDisjoint
      (collect_security_logs since (some untilT) now0 fr os).finalState.pending = true := by
  have hc := collect_finalState since (some untilT) now0 fr os
  simp only [Option.isNone_some, Option.getD_some] at hc
  rw [hc, windowsDisjoint_iff]
  apply runLoop_backfill_disjoint fr os _ hv
  simpa [initialState] using scheduleWindowsAux_disjoint untilT _ since

/-- Scheduler trace for the `c8_backfill_disjoint_invariant` witness. -/
def c8osW : List RoundOracle := [⟨[(0, day)], [(day, 2 * day)], 0, none⟩]

/-- Witness for `c8_backfill_disjoint_invariant` on a two-window backfill
with one completed round. -/
theorem c8_backfill_disjoint_invariant_witness :
    validRun false c8fr c8osW (initialState 0 (2 * day)) = true ∧
    windowsDisjoint
      (collect_security_logs 0 (some (2 * day)) 0 c8fr c8osW).finalState.pending = true :=
  ⟨by decide, c8_backfill_disjoint_invariant 0 (2 * day) 0 c8fr c8osW (by decide)⟩

/-! ### C1 — the backfill merge -/

lemma flatten_filter_nonempty (bs : List (List SecurityRecord)) :
    ((bs.filter fun l => !l.isEmpty).flatten) = bs.flatten := by
  induction bs with
  | nil => rfl
  | cons b bs ih => cases b <;> simp [ih]

lemma foldl_extend_eq : ∀ (bs : List (List SecurityRecord)) (b0 : List SecurityRecord),
    bs.foldl (fun acc l => if l = [] then acc else acc ++ l) b0 =
      b0 ++ ((bs.filter fun l => !l.isEmpty).flatten) := by
  intro bs
  induction bs with
  | nil => intro b0; simp
  | cons b bs ih =>
    intro b0
    by_cases hb : b = []
    · subst hb
      simp [ih]
    · simp [hb, ih, List.isEmpty_eq_true]

lemma filter_isYield_fetchIssued (ws : List (Int × Int)) :
    (ws.map GEvent.fetchIssued).filter isYield = [] := by
  induction ws with
  | nil => rfl
  | cons w ws ih => simp [isYield, ih]

lemma runLoop_backfill_run (fr : Int × Int → Response) :
    ∀ (os : List RoundOracle) (st : CollectState),
      validRun false fr os st = true →
      (runLoop false fr os st).ending = LoopEnd.drained →
      (runLoop false fr os st).events = [] ∧
      (runLoop false fr os st).finalState.b =
        st.b ++ ((((runLoop false fr os st).processed.map fun w => (fr w).body).filter
            fun l => !l.isEmpty).flatten) ∧
      List.Perm (runLoop false fr os st).processed st.pending := by
  intro os
  induction os with
  | nil =>
    intro st _ hd
    by_cases h : st.pending = []
    · simp [runLoop, h]
    · simp [runLoop, h] at hd
  | cons o os ih =>
    intro st hv hd
    by_cases h : st.pending = []
    · simp [runLoop, h]
    · cases hi : o.interrupt with
      | some i =>
        exfalso
        revert hd
        cases i <;> (simp only [runLoop, hi]; rw [if_neg h]; simp)
      | none =>
        simp only [validRun, hi] at hv
        rw [if_neg h] at hv
        simp only [Bool.and_eq_true, decide_eq_true_eq] at hv
        obtain ⟨hperm, hv'⟩ := hv
        have hloop : runLoop false fr (o :: os) st =
            ⟨(doRound false fr st o).2 ++ (runLoop false fr os (doRound false fr st o).1).events,
             o.done ++ (runLoop false fr os (doRound false fr st o).1).processed,
             (runLoop false fr os (doRound false fr st o).1).finalState,
             (runLoop false fr os (doRound false fr st o).1).ending⟩ := by
          simp only [runLoop, hi]
          rw [if_neg h]
        have hd' : (runLoop false fr os (doRound false fr st o).1).ending = LoopEnd.drained := by
          rw [hloop] at hd
          exact hd
        obtain ⟨hev, hb, hp⟩ := ih (doRound false fr st o).1 hv' hd'
        have hstep : doRound false fr st o =
            (⟨o.rest,
              st.b ++ (((o.done.map fun w => (fr w).body).filter fun l => !l.isEmpty).flatten),
              st.d⟩,
             []) := by
          simp only [doRound, Bool.false_eq_true, if_false]
          rw [← List.foldl_map (fun w => (fr w).body)
                (fun acc l => if l = [] then acc else acc ++ l) o.done st.b]
          rw [foldl_extend_eq]
        rw [hloop]
        refine ⟨?_, ?_, ?_⟩
        · rw [hstep] at hev ⊢
          simp [hev]
        · rw [hstep] at hb ⊢
          simp only [hb]
          simp [List.filter_append, List.flatten_append, List.map_append]
        · rw [hstep] at hp ⊢
          simpa using ((hp.append_left o.done).trans hperm)

lemma collect_backfill_drained (since untilT now0 : Int) (fr : Int × Int → Response)
    (os : List RoundOracle)
    (hv : validRun false fr os (initialState since untilT) = true)
    (hend : (runLoop false fr os (initialState since untilT)).ending = LoopEnd.drained) :
    collect_security_logs since (some untilT) now0 fr os =
      ⟨(scheduleWindows since untilT).map GEvent.fetchIssued ++
          [GEvent.yielded ⟨200, (runLoop false fr os (initialState since untilT)).finalState.b⟩],
       (runLoop false fr os (initialState since untilT)).processed,
       (runLoop false fr os (initialState since untilT)).finalState,
       LoopEnd.drained⟩ := by
  obtain ⟨hev, _, _⟩ := runLoop_backfill_run fr os _ hv hend
  simp [collect_security_logs, hend, hev]

/-- C1: in backfill mode, once the `while pending` loop drains (every
scheduled window's fetch has completed), `collect_security_logs` yields
exactly one final synthesized response: its status code is 200 and its body
is the concatenation, in completion-processing order, of the records of
every fetch whose body was a non-empty array; a fetch whose body is empty
contributes nothing to the buffer and does not abort the collection (the
merged buffer equals the flattening of all processed bodies, empty ones
included vacuously), and the processed fetches are exactly the scheduled
windows. -/
theorem c1_backfill_merge (since untilT now0 : Int) (fr : Int × Int → Response)
    (os : List RoundOracle)
    (hv : validRun false fr os (initialState since untilT) = true)
    (hd : (collect_security_logs since (some untilT) now0 fr os).ending = LoopEnd.drained) :
    (collect_security_logs since (some untilT) now0 fr os).events =
        (scheduleWindows since untilT).map GEvent.fetchIssued ++
          [GEvent.yielded ⟨200,
            (collect_security_logs since (some untilT) now0 fr os).finalState.b⟩] ∧
    (collect_security_logs since (some untilT) now0 fr os).finalState.b =
        ((((collect_security_logs since (some untilT) now0 fr os).processed.map
            fun w => (fr w).body).filter fun l => !l.isEmpty).flatten) ∧
    (collect_security_logs since (some untilT) now0 fr os).finalState.b =
        (((collect_security_logs since (some untilT) now0 fr os).processed.map
            fun w => (fr w).body).flatten) ∧
    List.Perm (collect_security_logs since (some untilT) now0 fr os).processed
      (scheduleWindows since untilT) ∧
    (collect_security_logs since (some untilT) now0 fr os).events.filter isYield =
      [GEvent.yielded ⟨200,
        (collect_security_logs since (some untilT) now0 fr os).finalState.b⟩] := by
  have hend : (runLoop false fr os (initialState since untilT)).ending = LoopEnd.drained := by
    have hce := collect_ending since (some untilT) now0 fr os
    simp only [Option.isNone_some, Option.getD_some] at hce
    rw [hce] at hd
    exact hd
  obtain ⟨hev, hb, hperm⟩ := runLoop_backfill_run fr os (initialState since untilT) hv hend
  have hcb := collect_backfill_drained since untilT now0 fr os hv hend
  have hbody2 : (runLoop false fr os (initialState since untilT)).finalState.b =
      ((((runLoop false fr os (initialState since untilT)).processed.map
          fun w => (fr w).body).filter fun l => !l.isEmpty).flatten) := by
    rw [hb]
    simp [initialState]
  refine ⟨?_, ?_, ?_, ?_, ?_⟩
  · rw [hcb]
  · rw [hcb]
    exact hbody2
  · rw [hcb]
    rw [hbody2, flatten_filter_nonempty]
  · rw [hcb]
    simpa [initialState] using hperm
  · rw [hcb]
    simp [List.filter_append, filter_isYield_fetchIssued, isYield]

/-- Fetch results for the `c1_backfill_merge` witness: the first window has
one record, the second an empty body. -/
def c1fr : Int × Int → Response :=
  fun w => if w = (0, day) then ⟨200, [⟨5, "a"⟩]⟩ else ⟨200, []⟩

/-- Scheduler trace for the `c1_backfill_merge` witness: both windows
complete in the single round, the record-bearing one processed first. -/
def c1os : List RoundOracle := [⟨[(0, day), (day, 2 * day)], [], 0, none⟩]

/-- Witness for `c1_backfill_merge` on a two-window backfill in which one
body is empty. -/
theorem c1_backfill_merge_witness :
    (validRun false c1fr c1os (initialState 0 (2 * day)) = true ∧
      (collect_security_logs 0 (some (2 * day)) 0 c1fr c1os).ending = LoopEnd.drained) ∧
    (collect_security_logs 0 (some (2 * day)) 0 c1fr c1os).events =
      (scheduleWindows 0 (2 * day)).map GEvent.fetchIssued ++
        [GEvent.yielded ⟨200,
          (collect_security_logs 0 (some (2 * day)) 0 c1fr c1os).finalState.b⟩] :=
  ⟨⟨by decide, by decide⟩,
   (c1_backfill_merge 0 (2 * day) 0 c1fr c1os (by decide) (by decide)).1⟩

end Spellbook
